import Mathlib

/-!
Shallow embedding of the PMSPlanner core: the frequency parser
(`utils.py`, class `FrequencyParser`), the major-machinery filter
(`data_processor.py`, `DataProcessor.filter_major_machinery`) and the
vessel quarterly KPI table (`app.py`, `display_vessel_kpis_summary`).

Strings are modelled as their character lists; `none` models a NaN /
`None` cell.  Python's `\d` and `\s` character classes and `str.strip`
are modelled on ASCII (`Char.isDigit`, `Char.isWhitespace`), which is
exact on the data this program handles.  Python `round(x, 1)` on a
float quotient is modelled faithfully: the quotient is rounded to the
nearest binary64 value (53-bit significand, ties to even) and that
float's exact value is then correctly rounded to one decimal, again
ties to even, exactly as CPython computes it.
-/

/-- Numeric value of a run of ASCII digit characters, as Python
`int(digits)` computes it (most significant digit first). -/
def natOfDigits (ds : List Char) : Nat :=
  ds.foldl (fun n c => 10 * n + (c.toNat - 48)) 0

/-- `startsWithL p l` : the text `l` begins with the literal characters `p`. -/
def startsWithL : List Char → List Char → Bool
  | [], _ => true
  | _ :: _, [] => false
  | p :: ps, c :: cs => p == c && startsWithL ps cs

/-- Python substring test `p in l` (callers lower-case the text first,
matching `freq_str.lower()` in the source). -/
def containsSub (p : List Char) : List Char → Bool
  | [] => p.isEmpty
  | c :: cs => startsWithL p (c :: cs) || containsSub p cs

/-- Case-insensitive prefix test used for the `re.IGNORECASE` patterns:
the pattern `p` is lower-case and each text character is lowered before
comparison. -/
def startsWithCI : List Char → List Char → Bool
  | [], _ => true
  | _ :: _, [] => false
  | p :: ps, c :: cs => p == c.toLower && startsWithCI ps cs

/-- One attempted match of the pattern `(\d+)\s*<unit>s?` at the head of
`cs`: the capture group is the maximal digit run (regex backtracking
cannot accept a shorter run here, since the character after a shorter
run is a digit, which matches neither `\s` nor the unit letter); the
optional `s` does not affect the captured number. -/
def matchNumUnit (unit : List Char) (cs : List Char) : Option Nat :=
  match cs with
  | [] => none
  | c :: _ =>
    if c.isDigit then
      let ds := cs.takeWhile Char.isDigit
      let rest := (cs.dropWhile Char.isDigit).dropWhile Char.isWhitespace
      if startsWithCI unit rest then some (natOfDigits ds) else none
    else none

/-- `re.search` of the pattern `(\d+)\s*<unit>s?` (IGNORECASE): try each
start position left to right and return the first captured number. -/
def reSearch (unit : List Char) : List Char → Option Nat
  | [] => none
  | c :: cs =>
    match matchNumUnit unit (c :: cs) with
    | some n => some n
    | none => reSearch unit cs

/-- Python `str.strip()`. -/
def pstrip (l : List Char) : List Char :=
  ((l.dropWhile Char.isWhitespace).reverse.dropWhile Char.isWhitespace).reverse

/-- Unit word of `self.hour_pattern` (utils.py line 10). -/
def hourTok : List Char := ['h', 'o', 'u', 'r']

/-- Unit word of `self.month_pattern` (utils.py line 11). -/
def monthTok : List Char := ['m', 'o', 'n', 't', 'h']

/-- Unit word of `self.year_pattern` (utils.py line 12). -/
def yearTok : List Char := ['y', 'e', 'a', 'r']

/-- Unit word of `self.day_pattern` (utils.py line 13). -/
def dayTok : List Char := ['d', 'a', 'y']

/-- Unit word of `self.week_pattern` (utils.py line 14). -/
def weekTok : List Char := ['w', 'e', 'e', 'k']

/-- Round `a / b` (with `b > 0`) to the nearest integer, ties to even
(`n` is the floor of the quotient, `rem` its nonnegative remainder).
This is the correct-rounding step CPython's `double_round` applies to
the exact value of a binary64 float. -/
def pyRoundDiv (a b : ℤ) : ℤ :=
  let n := a.fdiv b
  let rem := a - n * b
  if 2 * rem < b then n
  else if 2 * rem = b then (if n % 2 = 0 then n else n + 1)
  else n + 1

/-- Fuel-driven floor of the base-2 logarithm (structural recursion so
that kernel reduction works; `flog2` supplies `n` itself as fuel, which
always suffices). -/
def log2Fuel : ℕ → ℕ → ℕ
  | 0, _ => 0
  | f + 1, n => if 2 ≤ n then log2Fuel f (n / 2) + 1 else 0

/-- `⌊log₂ n⌋` (and `0` for `n ≤ 1`). -/
def flog2 (n : ℕ) : ℕ := log2Fuel n n

/-- Numerator of `(a / b) · 2 ^ k` written as a fraction of naturals:
the power of two goes to the numerator when `k ≥ 0`. -/
def scNum (a : ℕ) (k : ℤ) : ℕ := if 0 ≤ k then a * 2 ^ k.toNat else a

/-- Denominator counterpart of `scNum`. -/
def scDen (b : ℕ) (k : ℤ) : ℕ := if 0 ≤ k then b else b * 2 ^ (-k).toNat

/-- The binary64 (IEEE-754 double) value of `a / b` for `a, b > 0`:
round to nearest, ties to even, on a 53-bit significand, with unbounded
exponent range (exact for every quotient between the subnormal and
overflow thresholds, i.e. up to about `10^308`).  `k` is chosen so that
`(a / b) · 2 ^ k` lies in `[2^52, 2^53)`; that scaled quotient is
rounded half-to-even to the integer significand `m`, and the value is
`m / 2 ^ k`.  CPython's int/int true division is correctly rounded, so
this is the float the source's `hours / 720` etc. produce. -/
def floatDivPos (a b : ℕ) : ℚ :=
  let k0 : ℤ := 52 - (flog2 a : ℤ) + (flog2 b : ℤ)
  let k : ℤ := if scNum a k0 < 2 ^ 52 * scDen b k0 then k0 + 1 else k0
  let A := scNum a k
  let B := scDen b k
  let q0 := A / B
  let rem := A - q0 * B
  let m : ℕ :=
    if 2 * rem < B then q0
    else if 2 * rem = B then (if q0 % 2 = 0 then q0 else q0 + 1)
    else q0 + 1
  if 0 ≤ k then mkRat (m : ℤ) (2 ^ k.toNat) else ((m * 2 ^ (-k).toNat : ℕ) : ℚ)

/-- Binary64 value of `a / b` for `a ≥ 0 < b` (the parser only divides
nonnegative regex captures by positive constants). -/
def floatDiv (a b : ℤ) : ℚ :=
  if a ≤ 0 ∨ b ≤ 0 then 0 else floatDivPos a.toNat b.toNat

/-- Python `round(a / b, 1)` for integers `a ≥ 0`, `b > 0`, as the
source computes it: `a / b` is first rounded to the nearest binary64
float (CPython's int/int division is correctly rounded), then
`round(·, 1)` correctly rounds the exact value of that float to one
decimal, ties to even (CPython's `double_round`).  The returned float
is identified with the decimal `k/10` it denotes.  Faithful whenever
the quotient is below the float overflow threshold of about `10^308`
(beyond it CPython raises `OverflowError`). -/
def round1Div (a b : ℤ) : ℚ :=
  let fl := floatDiv a b
  mkRat (pyRoundDiv (10 * fl.num) (fl.den : ℤ)) 10

/-- Body of `FrequencyParser.parse_to_hours` after the null/empty check
and `strip` (utils.py lines 23-52): the five unit patterns in source
order, converted with the source's constants (the source computes these
products on exact Python ints). -/
def parseHoursCore (t : List Char) : Option ℚ :=
  match reSearch hourTok t with
  | some n => some ((n : ℚ))
  | none =>
    match reSearch monthTok t with
    | some n => some ((n * 30 * 24 : ℕ) : ℚ)
    | none =>
      match reSearch yearTok t with
      | some n => some ((n * 365 * 24 : ℕ) : ℚ)
      | none =>
        match reSearch dayTok t with
        | some n => some ((n * 24 : ℕ) : ℚ)
        | none =>
          match reSearch weekTok t with
          | some n => some ((n * 7 * 24 : ℕ) : ℚ)
          | none => none

/-- Body of `FrequencyParser.parse_to_months` after the null/empty check
and `strip` (utils.py lines 61-90); `round(weeks / 4.33, 1)` is the
rounding of the exact quotient `100 * weeks / 433`. -/
def parseMonthsCore (t : List Char) : Option ℚ :=
  match reSearch monthTok t with
  | some n => some ((n : ℚ))
  | none =>
    match reSearch yearTok t with
    | some n => some ((n * 12 : ℕ) : ℚ)
    | none =>
      match reSearch hourTok t with
      | some n => some (round1Div n 720)
      | none =>
        match reSearch dayTok t with
        | some n => some (round1Div n 30)
        | none =>
          match reSearch weekTok t with
          | some n => some (round1Div (100 * n) 433)
          | none => none

/-- `FrequencyParser.parse_to_hours` on an actual string value: the
`frequency_str == ''` early return, then `strip`, then the pattern
chain. -/
def parseToHoursL (t : List Char) : Option ℚ :=
  if t = [] then none else parseHoursCore (pstrip t)

/-- `FrequencyParser.parse_to_months` on an actual string value. -/
def parseToMonthsL (t : List Char) : Option ℚ :=
  if t = [] then none else parseMonthsCore (pstrip t)

/-- `FrequencyParser.parse_to_hours` (utils.py lines 16-52); the outer
`Option` models a NaN cell (`pd.isna`). -/
def parse_to_hours (freq : Option String) : Option ℚ :=
  match freq with
  | none => none
  | some s => parseToHoursL s.data

/-- `FrequencyParser.parse_to_months` (utils.py lines 54-90). -/
def parse_to_months (freq : Option String) : Option ℚ :=
  match freq with
  | none => none
  | some s => parseToMonthsL s.data

/-- A valid calendar date, reduced to the fields the core reads: the
year, and the month stored zero-based (`month0 = month - 1`; pandas
guarantees `1 ≤ month ≤ 12` on every non-NaT date). -/
structure Date where
  year : Int
  month0 : Fin 12
deriving DecidableEq, Repr

/-- `pandas.Timestamp.quarter`: months 1-3 → 1, …, 10-12 → 4. -/
def quarterOf (d : Date) : Nat := d.month0.val / 3 + 1

/-- One row of the maintenance DataFrame, restricted to the columns the
core logic reads; `none` models a NaN cell. -/
structure Record where
  vessel : String
  machineryLocation : String
  jobAction : String
  frequency : Option String
  calculatedDueDate : Option Date
deriving DecidableEq, Repr

/-- A row of the working copy inside `filter_major_machinery`: the base
record plus the three helper columns.  The outer `Option` is column
presence, the inner one a NaN cell. -/
structure Row where
  base : Record
  freqHours : Option (Option ℚ)
  freqMonths : Option (Option ℚ)
  dueYear : Option (Option Int)
deriving DecidableEq, Repr

/-- Python `int(s)` on a decimal string: optional surrounding
whitespace, optional sign, then at least one digit (PEP-515 underscore
grouping is not modelled).  `none` models `ValueError`. -/
def pyInt (s : String) : Option ℤ :=
  match pstrip s.data with
  | '-' :: ds =>
    if !ds.isEmpty && ds.all Char.isDigit then some (-(natOfDigits ds : ℤ)) else none
  | '+' :: ds =>
    if !ds.isEmpty && ds.all Char.isDigit then some ((natOfDigits ds : ℤ)) else none
  | ds =>
    if !ds.isEmpty && ds.all Char.isDigit then some ((natOfDigits ds : ℤ)) else none

/-- Python `if v and v >= m`: `None` and `0` are both falsy. -/
def truthyGe (x : Option ℚ) (m : ℚ) : Bool :=
  match x with
  | none => false
  | some v => if v = 0 then false else decide (m ≤ v)

/-- Body of the per-record frequency-gate loop
(`data_processor.py` lines 81-96). -/
def gate (freq : Option String) (minHours minMonths : ℚ) : Bool :=
  match freq with
  | none => false
  | some s =>
    if s = "" then false
    else
      let t := pstrip s.data
      if containsSub hourTok (t.map Char.toLower) then
        truthyGe (parseToHoursL t) minHours
      else if containsSub monthTok (t.map Char.toLower) then
        truthyGe (parseToMonthsL t) minMonths
      else false

/-- `data_processor.py` lines 71-76: attach the two parsed helper
columns to every row of the working copy. -/
def addHelperColumns (recs : List Record) : List Row :=
  recs.map fun r =>
    { base := r
      freqHours := some (parse_to_hours r.frequency)
      freqMonths := some (parse_to_months r.frequency)
      dueYear := none }

/-- `data_processor.py` lines 79-98: keep the rows whose frequency
passes the gate. -/
def frequencyMaskFilter (minHours minMonths : ℚ) (rows : List Row) : List Row :=
  rows.filter fun row => gate row.base.frequency minHours minMonths

/-- `data_processor.py` lines 100-109: the optional due-year filter.
`int(year_filter)` failing with `ValueError` makes the step a no-op;
otherwise the `Due_Year` helper column is attached and the mask keeps
matching years and NaN years. -/
def applyYearFilter (yearFilter : Option String) (rows : List Row) : List Row :=
  match yearFilter with
  | none => rows
  | some s =>
    if s = "" ∨ s = "All Years" then rows
    else
      match pyInt s with
      | none => rows
      | some y =>
        (rows.map fun row =>
          { row with dueYear := some (row.base.calculatedDueDate.map Date.year) }).filter
          fun row =>
            match row.dueYear with
            | some (some yy) => yy == y
            | _ => true

/-- `data_processor.py` lines 111-118, list-typed branch: an empty list
is falsy (`if vessel_filter:`), a non-empty list keeps `isin` members. -/
def applyVesselFilter (vf : List String) (rows : List Row) : List Row :=
  if vf.isEmpty then rows else rows.filter fun row => vf.contains row.base.vessel

/-- `data_processor.py` lines 120-127, list-typed branch. -/
def applyMachineryFilter (mf : List String) (rows : List Row) : List Row :=
  if mf.isEmpty then rows else rows.filter fun row => mf.contains row.base.machineryLocation

/-- `data_processor.py` lines 129-136, list-typed branch. -/
def applyJobActionFilter (jf : List String) (rows : List Row) : List Row :=
  if jf.isEmpty then rows else rows.filter fun row => jf.contains row.base.jobAction

/-- `data_processor.py` lines 138-145: drop the helper columns
(`Due_Year` is dropped only when present; on a row level both cases end
with the field absent). -/
def dropHelperColumns (rows : List Row) : List Row :=
  rows.map fun row => { row with freqHours := none, freqMonths := none, dueYear := none }

/-- `DataProcessor.filter_major_machinery` (`data_processor.py` lines
62-147).  The second component is the processor's stored DataFrame
after the call: the source filters a `self.df.copy()`, so the store is
returned unchanged. -/
def filter_major_machinery (df : Option (List Record)) (minHours minMonths : ℚ)
    (yearFilter : Option String)
    (vesselFilter machineryFilter jobActionFilter : List String) :
    Except String (List Row) × Option (List Record) :=
  match df with
  | none => (Except.error "No data loaded. Please load data first.", none)
  | some recs =>
    (Except.ok
      (dropHelperColumns
        (applyJobActionFilter jobActionFilter
          (applyMachineryFilter machineryFilter
            (applyVesselFilter vesselFilter
              (applyYearFilter yearFilter
                (frequencyMaskFilter minHours minMonths
                  (addHelperColumns recs))))))),
     some recs)

/-- The record set surviving the interval-gate stage of
`filter_major_machinery` ("the major-machinery set"). -/
def majorMachinerySet (recs : List Record) (minHours minMonths : ℚ) : List Record :=
  (frequencyMaskFilter minHours minMonths (addHelperColumns recs)).map Row.base

/-- `display_vessel_kpis_summary` (app.py lines 318-319): rows with an
invalid due date are discarded before bucketing. -/
def validRecs (recs : List Record) : List Record :=
  recs.filter fun r => r.calculatedDueDate.isSome

/-- The records of one vessel falling in one due-date year
(app.py lines 328-332). -/
def recsVY (recs : List Record) (v : String) (y : ℤ) : List Record :=
  (validRecs recs).filter fun r =>
    r.vessel == v && r.calculatedDueDate.map Date.year == some y

/-- The records of one vessel in one (year, quarter) bucket
(app.py lines 337-338). -/
def recsVYQ (recs : List Record) (v : String) (y : ℤ) (q : Nat) : List Record :=
  (recsVY recs v y).filter fun r =>
    match r.calculatedDueDate with
    | some d => quarterOf d == q
    | none => false

/-- pandas `Series.nunique` of the `Machinery Location` column. -/
def nuniqueMach (l : List Record) : Nat :=
  ((l.map Record.machineryLocation).dedup).length

/-- The `Q1`..`Q4` cell of the KPI pivot table (app.py lines 337-347 and
356-362): the number of distinct machinery locations in the bucket. -/
def kpiQuarterCell (recs : List Record) (v : String) (y : ℤ) (q : Nat) : Nat :=
  nuniqueMach (recsVYQ recs v y q)

/-- The `Year Total` cell of the KPI pivot table (app.py lines 334 and
365): the number of distinct machinery locations across the year. -/
def kpiYearTotal (recs : List Record) (v : String) (y : ℤ) : Nat :=
  nuniqueMach (recsVY recs v y)

/-! ### Character and list helper lemmas -/

lemma isWhitespace_eq_false_of_isDigit {c : Char} (h : c.isDigit = true) :
    c.isWhitespace = false := by
  cases hw : c.isWhitespace
  · rfl
  · exfalso
    simp only [Char.isWhitespace, Bool.or_eq_true, decide_eq_true_eq] at hw
    rcases hw with ((rfl | rfl) | rfl) | rfl <;> exact absurd h (by decide)

lemma takeWhile_nil_of_head {p : Char → Bool} {l : List Char}
    (h : ∀ c, l.head? = some c → p c = false) : l.takeWhile p = [] := by
  cases l with
  | nil => rfl
  | cons a t => exact List.takeWhile_cons_of_neg (by simp [h a rfl])

lemma dropWhile_eq_self_of_head {p : Char → Bool} {l : List Char}
    (h : ∀ c, l.head? = some c → p c = false) : l.dropWhile p = l := by
  cases l with
  | nil => rfl
  | cons a t => exact List.dropWhile_cons_of_neg (by simp [h a rfl])

lemma matchNumUnit_run (tok : List Char) {ds tail : List Char} (hne : ds ≠ [])
    (hd : ∀ c ∈ ds, c.isDigit = true)
    (hh : ∀ c, tail.head? = some c → c.isDigit = false) :
    matchNumUnit tok (ds ++ tail) =
      (if startsWithCI tok (tail.dropWhile Char.isWhitespace) then some (natOfDigits ds)
       else none) := by
  obtain ⟨d, ds', rfl⟩ := List.exists_cons_of_ne_nil hne
  have hdd : d.isDigit = true := hd d (by simp)
  have htake : ((d :: ds') ++ tail).takeWhile Char.isDigit = d :: ds' := by
    rw [List.takeWhile_append_of_pos (by simpa using hd), takeWhile_nil_of_head hh,
      List.append_nil]
  have hdrop : ((d :: ds') ++ tail).dropWhile Char.isDigit = tail := by
    rw [List.dropWhile_append_of_pos (by simpa using hd), dropWhile_eq_self_of_head hh]
  rw [show (d :: ds') ++ tail = d :: (ds' ++ tail) from rfl] at htake hdrop ⊢
  rw [matchNumUnit]
  simp only [hdd, if_true, htake, hdrop]

lemma reSearch_run_hit {tok ds tail : List Char} (hne : ds ≠ [])
    (hd : ∀ c ∈ ds, c.isDigit = true)
    (hh : ∀ c, tail.head? = some c → c.isDigit = false)
    (hunit : startsWithCI tok (tail.dropWhile Char.isWhitespace) = true) :
    reSearch tok (ds ++ tail) = some (natOfDigits ds) := by
  obtain ⟨d, ds', rfl⟩ := List.exists_cons_of_ne_nil hne
  have hm := matchNumUnit_run tok hne hd hh
  rw [hunit, if_pos rfl] at hm
  rw [show (d :: ds') ++ tail = d :: (ds' ++ tail) from rfl] at hm ⊢
  rw [reSearch, hm]

lemma reSearch_skip_run {tok ds tail : List Char}
    (hd : ∀ c ∈ ds, c.isDigit = true)
    (hh : ∀ c, tail.head? = some c → c.isDigit = false)
    (hunit : startsWithCI tok (tail.dropWhile Char.isWhitespace) = false) :
    reSearch tok (ds ++ tail) = reSearch tok tail := by
  induction ds with
  | nil => rfl
  | cons d ds' ih =>
    have hm := matchNumUnit_run tok (List.cons_ne_nil d ds') hd hh
    rw [hunit, if_neg Bool.false_ne_true] at hm
    rw [show (d :: ds') ++ tail = d :: (ds' ++ tail) from rfl] at hm ⊢
    rw [reSearch, hm]
    exact ih (fun c hc => hd c (by simp [hc]))

lemma reSearch_cons_of_not_digit {tok : List Char} {c : Char} {l : List Char}
    (h : c.isDigit = false) : reSearch tok (c :: l) = reSearch tok l := by
  rw [reSearch, matchNumUnit]
  simp only [h, Bool.false_eq_true, if_false]

lemma pstrip_eq_self {l : List Char}
    (h1 : ∀ c, l.head? = some c → c.isWhitespace = false)
    (h2 : ∀ c, l.getLast? = some c → c.isWhitespace = false) : pstrip l = l := by
  unfold pstrip
  rw [dropWhile_eq_self_of_head h1, dropWhile_eq_self_of_head, List.reverse_reverse]
  intro c hc
  exact h2 c (by rwa [List.head?_reverse] at hc)

lemma head?_dropWhile_false {p : Char → Bool} {l : List Char} {c : Char}
    (hc : (l.dropWhile p).head? = some c) : p c = false := by
  have h := List.head?_dropWhile_not p l
  rw [hc] at h
  exact h

lemma getLast?_of_suffix {l₁ l₂ : List Char} (h : l₁ <:+ l₂) {c : Char}
    (hc : l₁.getLast? = some c) : l₂.getLast? = some c := by
  obtain ⟨pre, rfl⟩ := h
  rw [List.getLast?_append, hc]
  rfl

lemma pstrip_idem (l : List Char) : pstrip (pstrip l) = pstrip l := by
  apply pstrip_eq_self
  · intro c hc
    rw [pstrip, List.head?_reverse] at hc
    have h2 := getLast?_of_suffix (List.dropWhile_suffix Char.isWhitespace) hc
    rw [List.getLast?_reverse] at h2
    exact head?_dropWhile_false h2
  · intro c hc
    rw [pstrip, List.getLast?_reverse] at hc
    exact head?_dropWhile_false hc

lemma parseHoursCore_nil : parseHoursCore [] = none := rfl

lemma parseMonthsCore_nil : parseMonthsCore [] = none := rfl

lemma parseToHoursL_pstrip (t : List Char) :
    parseToHoursL (pstrip t) = parseHoursCore (pstrip t) := by
  unfold parseToHoursL
  by_cases h : pstrip t = []
  · rw [if_pos h, h, parseHoursCore_nil]
  · rw [if_neg h, pstrip_idem]

lemma parseToMonthsL_pstrip (t : List Char) :
    parseToMonthsL (pstrip t) = parseMonthsCore (pstrip t) := by
  unfold parseToMonthsL
  by_cases h : pstrip t = []
  · rw [if_pos h, h, parseMonthsCore_nil]
  · rw [if_neg h, pstrip_idem]

lemma String_data_ne_nil {s : String} (h : s ≠ "") : s.data ≠ [] := by
  intro hd
  apply h
  cases s with
  | mk data => subst hd; rfl

lemma parse_to_hours_some {s : String} (h : s ≠ "") :
    parse_to_hours (some s) = parseHoursCore (pstrip s.data) := by
  show parseToHoursL s.data = _
  unfold parseToHoursL
  rw [if_neg (String_data_ne_nil h)]

lemma parse_to_months_some {s : String} (h : s ≠ "") :
    parse_to_months (some s) = parseMonthsCore (pstrip s.data) := by
  show parseToMonthsL s.data = _
  unfold parseToMonthsL
  rw [if_neg (String_data_ne_nil h)]

lemma majorMachinerySet_eq (recs : List Record) (mh mm : ℚ) :
    majorMachinerySet recs mh mm = recs.filter fun r => gate r.frequency mh mm := by
  unfold majorMachinerySet frequencyMaskFilter addHelperColumns
  induction recs with
  | nil => rfl
  | cons r t ih =>
    simp only [List.map_cons, List.filter_cons]
    by_cases hg : gate r.frequency mh mm
    · simp only [hg, if_true, List.map_cons, ih]
    · simp only [hg, Bool.false_eq_true, if_false, ih]

/-! ### KPI table lemmas -/

lemma mem_recsVY_due {recs : List Record} {v : String} {y : ℤ} {r : Record}
    (hr : r ∈ recsVY recs v y) : ∃ d, r.calculatedDueDate = some d := by
  unfold recsVY validRecs at hr
  rw [List.mem_filter] at hr
  obtain ⟨hr1, _⟩ := hr
  rw [List.mem_filter] at hr1
  exact Option.isSome_iff_exists.mp hr1.2

lemma mem_recsVYQ_of_quarter {recs : List Record} {v : String} {y : ℤ} {r : Record} {d : Date}
    (hr : r ∈ recsVY recs v y) (hd : r.calculatedDueDate = some d) :
    r ∈ recsVYQ recs v y (quarterOf d) := by
  unfold recsVYQ
  rw [List.mem_filter]
  refine ⟨hr, ?_⟩
  rw [hd]
  simp

lemma kpiYearTotal_le_sum (recs : List Record) (v : String) (y : ℤ) :
    kpiYearTotal recs v y ≤
      kpiQuarterCell recs v y 1 + kpiQuarterCell recs v y 2 +
        kpiQuarterCell recs v y 3 + kpiQuarterCell recs v y 4 := by
  classical
  unfold kpiYearTotal kpiQuarterCell nuniqueMach
  rw [← List.card_toFinset, ← List.card_toFinset, ← List.card_toFinset,
    ← List.card_toFinset, ← List.card_toFinset]
  have hsub : ((recsVY recs v y).map Record.machineryLocation).toFinset ⊆
      ((recsVYQ recs v y 1).map Record.machineryLocation).toFinset ∪
        ((recsVYQ recs v y 2).map Record.machineryLocation).toFinset ∪
        ((recsVYQ recs v y 3).map Record.machineryLocation).toFinset ∪
        ((recsVYQ recs v y 4).map Record.machineryLocation).toFinset := by
    intro x hx
    rw [List.mem_toFinset, List.mem_map] at hx
    obtain ⟨r, hr, rfl⟩ := hx
    obtain ⟨d, hd⟩ := mem_recsVY_due hr
    have hq := mem_recsVYQ_of_quarter hr hd
    have hlt : d.month0.val < 12 := d.month0.isLt
    have hcases : quarterOf d = 1 ∨ quarterOf d = 2 ∨ quarterOf d = 3 ∨ quarterOf d = 4 := by
      unfold quarterOf
      omega
    simp only [Finset.mem_union, List.mem_toFinset, List.mem_map]
    rcases hcases with h | h | h | h
    · exact Or.inl (Or.inl (Or.inl ⟨r, h ▸ hq, rfl⟩))
    · exact Or.inl (Or.inl (Or.inr ⟨r, h ▸ hq, rfl⟩))
    · exact Or.inl (Or.inr ⟨r, h ▸ hq, rfl⟩)
    · exact Or.inr ⟨r, h ▸ hq, rfl⟩
  refine le_trans (Finset.card_le_card hsub) ?_
  refine le_trans (Finset.card_union_le _ _) ?_
  refine le_trans (Nat.add_le_add_right (Finset.card_union_le _ _) _) ?_
  exact Nat.add_le_add_right (Nat.add_le_add_right (Finset.card_union_le _ _) _) _

lemma nuniqueMach_le_length (l : List Record) : nuniqueMach l ≤ l.length := by
  unfold nuniqueMach
  calc ((l.map Record.machineryLocation).dedup).length
      ≤ (l.map Record.machineryLocation).length := (List.dedup_sublist _).length_le
    _ = l.length := List.length_map _ _

/-! ### Filter-stage lemmas -/

lemma applyYearFilter_some (s : String) (rows : List Row) :
    applyYearFilter (some s) rows =
      if s = "" ∨ s = "All Years" then rows
      else
        match pyInt s with
        | none => rows
        | some y =>
          (rows.map fun row =>
            { row with dueYear := some (row.base.calculatedDueDate.map Date.year) }).filter
            fun row =>
              match row.dueYear with
              | some (some yy) => yy == y
              | _ => true := rfl

lemma applyYearFilter_parsed {s : String} {y : ℤ} (h : pyInt s = some y) (rows : List Row) :
    (applyYearFilter (some s) rows).map Row.base =
      (rows.map Row.base).filter fun r =>
        match r.calculatedDueDate with
        | none => true
        | some d => d.year == y := by
  have hs : ¬(s = "" ∨ s = "All Years") := by
    rintro (rfl | rfl)
    · rw [show pyInt "" = none from rfl] at h
      exact Option.noConfusion h
    · rw [show pyInt "All Years" = none from by decide] at h
      exact Option.noConfusion h
  rw [applyYearFilter_some, if_neg hs, h]
  induction rows with
  | nil => rfl
  | cons row t ih =>
    simp only [List.map_cons, List.filter_cons]
    cases hd : row.base.calculatedDueDate with
    | none => simpa [hd] using ih
    | some d =>
      by_cases hy : d.year == y
      · simpa [hd, hy] using ih
      · simpa [hd, hy] using ih

lemma applyYearFilter_invalid {s : String} (h : pyInt s = none) (rows : List Row) :
    applyYearFilter (some s) rows = rows := by
  rw [applyYearFilter_some]
  by_cases hs : s = "" ∨ s = "All Years"
  · rw [if_pos hs]
  · rw [if_neg hs, h]

/-! ### Gate lemmas -/

lemma gate_hour_iff {s : String} (hne : s ≠ "")
    (hh : containsSub hourTok ((pstrip s.data).map Char.toLower) = true)
    (mh mm : ℚ) :
    gate (some s) mh mm = true ↔
      ∃ h, parse_to_hours (some s) = some h ∧ h ≠ 0 ∧ mh ≤ h := by
  rw [parse_to_hours_some hne]
  show (if s = "" then false
    else
      if containsSub hourTok ((pstrip s.data).map Char.toLower) then
        truthyGe (parseToHoursL (pstrip s.data)) mh
      else if containsSub monthTok ((pstrip s.data).map Char.toLower) then
        truthyGe (parseToMonthsL (pstrip s.data)) mm
      else false) = true ↔ _
  rw [if_neg hne]
  simp only [hh, if_true]
  rw [parseToHoursL_pstrip]
  unfold truthyGe
  cases hp : parseHoursCore (pstrip s.data) with
  | none => simp
  | some v =>
    by_cases hv : v = 0
    · subst hv
      simp
    · simp [hv]

lemma gate_false_of_no_tokens {s : String}
    (hh : containsSub hourTok ((pstrip s.data).map Char.toLower) = false)
    (hm : containsSub monthTok ((pstrip s.data).map Char.toLower) = false)
    (mh mm : ℚ) : gate (some s) mh mm = false := by
  show (if s = "" then false
    else
      if containsSub hourTok ((pstrip s.data).map Char.toLower) then
        truthyGe (parseToHoursL (pstrip s.data)) mh
      else if containsSub monthTok ((pstrip s.data).map Char.toLower) then
        truthyGe (parseToMonthsL (pstrip s.data)) mm
      else false) = false
  by_cases hne : s = ""
  · rw [if_pos hne]
  · rw [if_neg hne]
    simp only [hh, hm, Bool.false_eq_true, if_false]

/-! ### Parser instance lemmas -/

lemma head?_cons_not_digit {c0 : Char} (h : c0.isDigit = false) (l : List Char) :
    ∀ c, (c0 :: l).head? = some c → c.isDigit = false := by
  intro c hc
  rw [List.head?_cons] at hc
  obtain rfl := Option.some.inj hc
  exact h

lemma getLast?_append_right (l₁ : List Char) {l₂ : List Char} {c : Char}
    (h : l₂.getLast? = some c) : (l₁ ++ l₂).getLast? = some c := by
  rw [List.getLast?_append, h]
  rfl

lemma startsWithCI_cons_false {p c : Char} {ps : List Char} (l : List Char)
    (h : (p == c.toLower) = false) : startsWithCI (p :: ps) (c :: l) = false := by
  simp [startsWithCI, h]

lemma pstrip_digits_append {ds tail : List Char} (hne : ds ≠ [])
    (hd : ∀ c ∈ ds, c.isDigit = true) {cl : Char}
    (hlast : tail.getLast? = some cl) (hws : cl.isWhitespace = false) :
    pstrip (ds ++ tail) = ds ++ tail := by
  apply pstrip_eq_self
  · intro c hc
    obtain ⟨d, ds', rfl⟩ := List.exists_cons_of_ne_nil hne
    rw [List.cons_append, List.head?_cons] at hc
    obtain rfl := Option.some.inj hc
    exact isWhitespace_eq_false_of_isDigit (hd _ (by simp))
  · intro c hc
    rw [getLast?_append_right ds hlast] at hc
    obtain rfl := Option.some.inj hc
    exact hws

lemma String_mk_ne_empty {l : List Char} (h : l ≠ []) : String.mk l ≠ "" := by
  intro he
  apply h
  have := congrArg String.data he
  simpa using this

lemma append_cons_ne_nil {ds : List Char} (c : Char) (l : List Char) (hne : ds ≠ []) :
    ds ++ c :: l ≠ [] := by
  obtain ⟨d, ds', rfl⟩ := List.exists_cons_of_ne_nil hne
  simp

/-- **C1 counterexample**: for the frequency string `"4000 hours"`,
`parse_to_hours` returns 4000 as claimed, but `parse_to_months` is not
absent — the parser converts cross-unit and returns `5.6` months
(`round(4000 / 720, 1)`, utils.py lines 72-76), refuting the strict
same-unit half of the claim. -/
theorem c1_counterexample :
    parse_to_hours (some "4000 hours") = some ((4000 : ℕ) : ℚ) ∧
      parse_to_months (some "4000 hours") = some (mkRat 28 5) ∧
      parse_to_months (some "4000 hours") ≠ none := by
  refine ⟨by decide, by decide, by decide⟩

/-- **C1** (amended): for every frequency string of the form
`"<digits> hours"` denoting `n`, `parse_to_hours` returns exactly `n`,
and `parse_to_months` returns the present value `round(n / 720, 1)` —
the float quotient rounded to one decimal, so `0.1` for `n = 36` and
`n = 108` where exact-rational half-even rounding would differ —
(cross-unit normalize mode), not absent.  The bound `n < 10^15` keeps
the quotient where the rounded float denotes its decimal exactly
(far beyond it trailing digits blur and CPython eventually overflows);
it is not used by the proof, only by the model's fidelity. -/
theorem c1_hours_string_parses (n : ℕ) (ds : List Char) (hne : ds ≠ [])
    (hd : ∀ c ∈ ds, c.isDigit = true) (hn : natOfDigits ds = n)
    (hlt : n < 10 ^ 15) :
    parse_to_hours (some (String.mk (ds ++ [' ', 'h', 'o', 'u', 'r', 's']))) = some ((n : ℚ)) ∧
      parse_to_months (some (String.mk (ds ++ [' ', 'h', 'o', 'u', 'r', 's']))) =
        some (round1Div (n : ℤ) 720) ∧
      parse_to_months (some "36 hours") = some (mkRat 1 10) ∧
      parse_to_months (some "108 hours") = some (mkRat 1 10) := by
  subst hn
  have hsne : String.mk (ds ++ [' ', 'h', 'o', 'u', 'r', 's']) ≠ "" :=
    String_mk_ne_empty (append_cons_ne_nil ' ' _ hne)
  have hps : pstrip (ds ++ [' ', 'h', 'o', 'u', 'r', 's']) = ds ++ [' ', 'h', 'o', 'u', 'r', 's'] :=
    pstrip_digits_append hne hd
      (show ([' ', 'h', 'o', 'u', 'r', 's'] : List Char).getLast? = some 's' by decide) (by decide)
  have hh := head?_cons_not_digit (show (' ').isDigit = false by decide) ['h', 'o', 'u', 'r', 's']
  have ehit : reSearch hourTok (ds ++ [' ', 'h', 'o', 'u', 'r', 's']) = some (natOfDigits ds) :=
    reSearch_run_hit hne hd hh (by decide)
  have em : reSearch monthTok (ds ++ [' ', 'h', 'o', 'u', 'r', 's']) = none := by
    rw [reSearch_skip_run hd hh (by decide)]
    decide
  have ey : reSearch yearTok (ds ++ [' ', 'h', 'o', 'u', 'r', 's']) = none := by
    rw [reSearch_skip_run hd hh (by decide)]
    decide
  refine ⟨?_, ?_, by decide, by decide⟩
  · rw [parse_to_hours_some hsne]
    show parseHoursCore (pstrip (ds ++ [' ', 'h', 'o', 'u', 'r', 's'])) = _
    rw [hps]
    unfold parseHoursCore
    rw [ehit]
  · rw [parse_to_months_some hsne]
    show parseMonthsCore (pstrip (ds ++ [' ', 'h', 'o', 'u', 'r', 's'])) = _
    rw [hps]
    unfold parseMonthsCore
    rw [em, ey, ehit]

/-- Witness for C1 at `"4000 hours"`. -/
theorem c1_hours_string_parses_witness :
    parse_to_hours (some (String.mk (['4', '0', '0', '0'] ++ [' ', 'h', 'o', 'u', 'r', 's']))) =
        some (((4000 : ℕ) : ℚ)) ∧
      parse_to_months (some (String.mk (['4', '0', '0', '0'] ++ [' ', 'h', 'o', 'u', 'r', 's']))) =
        some (round1Div ((4000 : ℕ) : ℤ) 720) ∧
      parse_to_months (some "36 hours") = some (mkRat 1 10) ∧
      parse_to_months (some "108 hours") = some (mkRat 1 10) :=
  c1_hours_string_parses 4000 ['4', '0', '0', '0'] (by decide) (by decide) (by decide) (by decide)

/-! ### Claim C7 -/

/-- **C7 counterexample**: `"4000.5 hours"` does not parse to the
decimal value `4000.5` (= `mkRat 8001 2`): the pattern `(\d+)\s*hours?`
captures only the digit run `5` directly before the unit, so
`parse_to_hours` returns `5`. -/
theorem c7_counterexample :
    parse_to_hours (some "4000.5 hours") = some (((5 : ℕ) : ℚ)) ∧
      parse_to_hours (some "4000.5 hours") ≠ some (mkRat 8001 2) := by
  refine ⟨by decide, by decide⟩

/-- **C7** (corrected): decimal interval values are not parsed as
decimals.  On `"<a>.<b> hours"` the integer pattern matches the
fractional digit run `<b>`, so `parse_to_hours` returns that integer
(for `"4000.5 hours"`: `5`), never the decimal value and never absent. -/
theorem c7_decimal_truncated (n₂ : ℕ) (ds₁ ds₂ : List Char)
    (h₁ : ds₁ ≠ []) (hd₁ : ∀ c ∈ ds₁, c.isDigit = true)
    (h₂ : ds₂ ≠ []) (hd₂ : ∀ c ∈ ds₂, c.isDigit = true)
    (hn : natOfDigits ds₂ = n₂) :
    parse_to_hours
        (some (String.mk (ds₁ ++ '.' :: (ds₂ ++ [' ', 'h', 'o', 'u', 'r', 's'])))) =
      some ((n₂ : ℚ)) := by
  subst hn
  have hlast6 : ([' ', 'h', 'o', 'u', 'r', 's'] : List Char).getLast? = some 's' := by decide
  have hlastX : (ds₂ ++ [' ', 'h', 'o', 'u', 'r', 's']).getLast? = some 's' :=
    getLast?_append_right ds₂ hlast6
  have hlastDX : ('.' :: (ds₂ ++ [' ', 'h', 'o', 'u', 'r', 's'])).getLast? = some 's' :=
    getLast?_append_right ['.'] hlastX
  have hsne : String.mk (ds₁ ++ '.' :: (ds₂ ++ [' ', 'h', 'o', 'u', 'r', 's'])) ≠ "" :=
    String_mk_ne_empty (append_cons_ne_nil '.' _ h₁)
  have hps : pstrip (ds₁ ++ '.' :: (ds₂ ++ [' ', 'h', 'o', 'u', 'r', 's'])) =
      ds₁ ++ '.' :: (ds₂ ++ [' ', 'h', 'o', 'u', 'r', 's']) :=
    pstrip_digits_append h₁ hd₁ hlastDX (by decide)
  have hhdot := head?_cons_not_digit (show ('.').isDigit = false by decide)
    (ds₂ ++ [' ', 'h', 'o', 'u', 'r', 's'])
  have hskip : startsWithCI hourTok
      (('.' :: (ds₂ ++ [' ', 'h', 'o', 'u', 'r', 's'])).dropWhile Char.isWhitespace) = false := by
    rw [List.dropWhile_cons_of_neg (by decide)]
    exact startsWithCI_cons_false _ (by decide)
  have hh2 := head?_cons_not_digit (show (' ').isDigit = false by decide) ['h', 'o', 'u', 'r', 's']
  have ehit : reSearch hourTok (ds₁ ++ '.' :: (ds₂ ++ [' ', 'h', 'o', 'u', 'r', 's'])) =
      some (natOfDigits ds₂) := by
    rw [reSearch_skip_run hd₁ hhdot hskip,
      reSearch_cons_of_not_digit (show ('.').isDigit = false by decide)]
    exact reSearch_run_hit h₂ hd₂ hh2 (by decide)
  rw [parse_to_hours_some hsne]
  show parseHoursCore (pstrip (ds₁ ++ '.' :: (ds₂ ++ [' ', 'h', 'o', 'u', 'r', 's']))) = _
  rw [hps]
  unfold parseHoursCore
  rw [ehit]

/-- Witness for C7 at `"4000.5 hours"`. -/
theorem c7_decimal_truncated_witness :
    parse_to_hours
        (some (String.mk (['4', '0', '0', '0'] ++ '.' :: (['5'] ++ [' ', 'h', 'o', 'u', 'r', 's'])))) =
      some (((5 : ℕ) : ℚ)) :=
  c7_decimal_truncated 5 ['4', '0', '0', '0'] ['5'] (by decide) (by decide) (by decide) (by decide)
    (by decide)


/-! ### Per-unit parse results for cross-unit mode -/

/-- Sample record: vessel `"V"`, machinery `"M"`, due in Q1 2025. -/
def kpiSampleA : Record :=
  { vessel := "V", machineryLocation := "M", jobAction := "A",
    frequency := some "4000 hours", calculatedDueDate := some ⟨2025, 0⟩ }

/-- Sample record: same vessel and machinery as `kpiSampleA`, due in Q2 2025. -/
def kpiSampleB : Record :=
  { vessel := "V", machineryLocation := "M", jobAction := "A",
    frequency := some "4000 hours", calculatedDueDate := some ⟨2025, 3⟩ }

/-- **C2 counterexample**: vessel `"V"` has 2 records in 2025 (one per
machinery `"M"` in Q1 and Q2), but the `Year Total` cell is 1, because
the code counts distinct machinery locations (`nunique`), not records;
the quarterly cells sum to 2 ≠ 1, so Year Total is not their sum either. -/
theorem c2_counterexample :
    (recsVY [kpiSampleA, kpiSampleB] "V" 2025).length = 2 ∧
      kpiQuarterCell [kpiSampleA, kpiSampleB] "V" 2025 1 +
          kpiQuarterCell [kpiSampleA, kpiSampleB] "V" 2025 2 +
          kpiQuarterCell [kpiSampleA, kpiSampleB] "V" 2025 3 +
          kpiQuarterCell [kpiSampleA, kpiSampleB] "V" 2025 4 = 2 ∧
      kpiYearTotal [kpiSampleA, kpiSampleB] "V" 2025 = 1 ∧
      kpiYearTotal [kpiSampleA, kpiSampleB] "V" 2025 ≠
        (recsVY [kpiSampleA, kpiSampleB] "V" 2025).length := by
  refine ⟨by decide, by decide, by decide, by decide⟩

/-- **C2** (amended): every KPI cell counts distinct machinery
locations, so the year-total cell is at most — not equal to — the sum of
the four quarterly cells, and each cell is bounded by the record count
of its bucket. -/
theorem c2_year_total_bounds (recs : List Record) (v : String) (y : ℤ) :
    kpiYearTotal recs v y ≤
        kpiQuarterCell recs v y 1 + kpiQuarterCell recs v y 2 +
          kpiQuarterCell recs v y 3 + kpiQuarterCell recs v y 4 ∧
      (∀ q, kpiQuarterCell recs v y q ≤ (recsVYQ recs v y q).length) ∧
      kpiYearTotal recs v y ≤ (recsVY recs v y).length :=
  ⟨kpiYearTotal_le_sum recs v y, fun _ => nuniqueMach_le_length _, nuniqueMach_le_length _⟩

/-! ### Claim C3 -/

/-- **C3 counterexample**: with frequency `"0 hours"` and
`min_hours = 0`, `parse_to_hours` yields the present value `0` with
`0 ≥ min_hours`, yet the record is excluded from the major-machinery
set: `if hours and hours >= min_hours` treats `0` as falsy. -/
theorem c3_counterexample :
    parse_to_hours (some "0 hours") = some 0 ∧ (0 : ℚ) ≤ 0 ∧
      ({ vessel := "V", machineryLocation := "M", jobAction := "A",
          frequency := some "0 hours", calculatedDueDate := none } : Record) ∉
        majorMachinerySet
          [{ vessel := "V", machineryLocation := "M", jobAction := "A",
              frequency := some "0 hours", calculatedDueDate := none }] 0 30 := by
  refine ⟨by decide, le_refl 0, by decide⟩

/-- **C3** (amended): a record whose (stripped) frequency text contains
the hour token is in the major-machinery set iff `parse_to_hours` yields
a present value `h` with `h ≠ 0` (Python truthiness) and `h ≥ min_hours`;
in particular `"4000 hours"` is included at `min_hours = 4000` and
excluded at `4001`. -/
theorem c3_hour_gate (recs : List Record) (r : Record) (mh mm : ℚ) (s : String)
    (hf : r.frequency = some s) (hne : s ≠ "")
    (hh : containsSub hourTok ((pstrip s.data).map Char.toLower) = true)
    (hmem : r ∈ recs) :
    r ∈ majorMachinerySet recs mh mm ↔
      ∃ h, parse_to_hours r.frequency = some h ∧ h ≠ 0 ∧ mh ≤ h := by
  rw [majorMachinerySet_eq]
  simp only [List.mem_filter, hf]
  constructor
  · rintro ⟨-, hg⟩
    exact (gate_hour_iff hne hh mh mm).mp hg
  · intro hx
    exact ⟨hmem, (gate_hour_iff hne hh mh mm).mpr hx⟩

/-- Witness for C3: `"4000 hours"` at `min_hours = 4000` and `4001`. -/
theorem c3_hour_gate_witness :
    (({ vessel := "V", machineryLocation := "M", jobAction := "A",
          frequency := some "4000 hours", calculatedDueDate := none } : Record) ∈
        majorMachinerySet
          [{ vessel := "V", machineryLocation := "M", jobAction := "A",
              frequency := some "4000 hours", calculatedDueDate := none }] 4000 30 ↔
      ∃ h, parse_to_hours (some "4000 hours") = some h ∧ h ≠ 0 ∧ (4000 : ℚ) ≤ h) ∧
      (({ vessel := "V", machineryLocation := "M", jobAction := "A",
            frequency := some "4000 hours", calculatedDueDate := none } : Record) ∈
          majorMachinerySet
            [{ vessel := "V", machineryLocation := "M", jobAction := "A",
                frequency := some "4000 hours", calculatedDueDate := none }] 4001 30 ↔
        ∃ h, parse_to_hours (some "4000 hours") = some h ∧ h ≠ 0 ∧ (4001 : ℚ) ≤ h) :=
  ⟨c3_hour_gate _ _ 4000 30 "4000 hours" rfl (by decide) (by decide) (by decide),
    c3_hour_gate _ _ 4001 30 "4000 hours" rfl (by decide) (by decide) (by decide)⟩

/-! ### Claim C4 -/

/-- **C4**: a record whose frequency text contains neither the hour
token nor the month token (for instance `"2 years"`) is excluded from
the major-machinery set regardless of the thresholds. -/
theorem c4_no_token_excluded (recs : List Record) (r : Record) (mh mm : ℚ) (s : String)
    (hf : r.frequency = some s)
    (hh : containsSub hourTok ((pstrip s.data).map Char.toLower) = false)
    (hm : containsSub monthTok ((pstrip s.data).map Char.toLower) = false) :
    r ∉ majorMachinerySet recs mh mm := by
  rw [majorMachinerySet_eq]
  intro hmem
  simp only [List.mem_filter] at hmem
  have hg := hmem.2
  rw [hf, gate_false_of_no_tokens hh hm mh mm] at hg
  exact Bool.false_ne_true hg

/-- Witness for C4: `"2 years"` is excluded even at zero thresholds. -/
theorem c4_no_token_excluded_witness :
    ({ vessel := "V", machineryLocation := "M", jobAction := "A",
        frequency := some "2 years", calculatedDueDate := none } : Record) ∉
      majorMachinerySet
        [{ vessel := "V", machineryLocation := "M", jobAction := "A",
            frequency := some "2 years", calculatedDueDate := none }] 0 0 :=
  c4_no_token_excluded _ _ 0 0 "2 years" rfl (by decide) (by decide)

/-! ### Claim C5 -/

/-- Sample working-copy row whose record is due in Q3 2025. -/
def rowDue2025 : Row :=
  { base :=
      { vessel := "V", machineryLocation := "M", jobAction := "A",
        frequency := some "4000 hours", calculatedDueDate := some ⟨2025, 6⟩ },
    freqHours := none, freqMonths := none, dueYear := none }

/-- Sample working-copy row whose record has no due date. -/
def rowNoDate : Row :=
  { base :=
      { vessel := "W", machineryLocation := "N", jobAction := "B",
        frequency := some "30 months", calculatedDueDate := none },
    freqHours := none, freqMonths := none, dueYear := none }

/-- **C5**: when the year-filter string parses as an integer `y`, the
surviving records are exactly those whose due date is absent or falls in
year `y` (absent dates always pass); when it does not parse as an
integer, the year filter is a no-op. -/
theorem c5_year_filter (s s' : String) (y : ℤ) (rows rows' : List Row) :
    (pyInt s = some y →
        (applyYearFilter (some s) rows).map Row.base =
          (rows.map Row.base).filter fun r =>
            match r.calculatedDueDate with
            | none => true
            | some d => d.year == y) ∧
      (pyInt s' = none → applyYearFilter (some s') rows' = rows') :=
  ⟨fun h => applyYearFilter_parsed h rows, fun h => applyYearFilter_invalid h rows'⟩

/-- Witness for C5: year filter `"2024"` on a 2025-due row and a
dateless row, and the non-numeric filter `"All Years"`. -/
theorem c5_year_filter_witness :
    ((applyYearFilter (some "2024") [rowDue2025, rowNoDate]).map Row.base =
        (([rowDue2025, rowNoDate] : List Row).map Row.base).filter fun r =>
          match r.calculatedDueDate with
          | none => true
          | some d => d.year == (2024 : ℤ)) ∧
      applyYearFilter (some "All Years") [rowDue2025, rowNoDate] = [rowDue2025, rowNoDate] :=
  ⟨(c5_year_filter "2024" "All Years" 2024 [rowDue2025, rowNoDate] [rowDue2025, rowNoDate]).1
      (by decide),
    (c5_year_filter "2024" "All Years" 2024 [rowDue2025, rowNoDate] [rowDue2025, rowNoDate]).2
      (by decide)⟩

/-! ### Claim C6 -/

/-- **C6**: for each of the vessel, machinery-location and job-action
filters, an empty list excludes nothing, and a non-empty list keeps
exactly the rows whose field value is a member of the list. -/
theorem c6_set_filters (vf mf jf : List String) (rows : List Row) (row : Row) :
    (row ∈ applyVesselFilter vf rows ↔ row ∈ rows ∧ (vf = [] ∨ row.base.vessel ∈ vf)) ∧
      (row ∈ applyMachineryFilter mf rows ↔
        row ∈ rows ∧ (mf = [] ∨ row.base.machineryLocation ∈ mf)) ∧
      (row ∈ applyJobActionFilter jf rows ↔
        row ∈ rows ∧ (jf = [] ∨ row.base.jobAction ∈ jf)) := by
  refine ⟨?_, ?_, ?_⟩
  · unfold applyVesselFilter
    by_cases hvf : vf = []
    · subst hvf
      simp
    · simp [hvf, List.mem_filter]
  · unfold applyMachineryFilter
    by_cases hmf : mf = []
    · subst hmf
      simp
    · simp [hmf, List.mem_filter]
  · unfold applyJobActionFilter
    by_cases hjf : jf = []
    · subst hjf
      simp
    · simp [hjf, List.mem_filter]

/-! ### Claim C8 -/

/-- **C8**: `filter_major_machinery` reports the error
`"No data loaded. Please load data first."` exactly when no record
store has been loaded; with a loaded store it never returns that error,
so absence of data is never signalled by an empty result. -/
theorem c8_no_data_error (df : Option (List Record)) (mh mm : ℚ) (yf : Option String)
    (vf mf jf : List String) :
    (filter_major_machinery df mh mm yf vf mf jf).1 =
        Except.error "No data loaded. Please load data first." ↔ df = none := by
  cases df with
  | none => simp [filter_major_machinery]
  | some recs => simp [filter_major_machinery]

/-! ### Claim C9 -/

lemma all_dropHelperColumns (rows : List Row) :
    (dropHelperColumns rows).all
      (fun row => row.freqHours.isNone && row.freqMonths.isNone && row.dueYear.isNone) = true := by
  induction rows with
  | nil => rfl
  | cons r t ih =>
    simp only [dropHelperColumns, List.map_cons, List.all_cons] at ih ⊢
    simp [ih]

/-- **C9**: `filter_major_machinery` works on a copy — the stored record
store is returned unchanged — and every returned row has all three
helper columns (`Frequency_Hours`, `Frequency_Months`, `Due_Year`)
absent. -/
theorem c9_filter_on_copy (recs : List Record) (mh mm : ℚ) (yf : Option String)
    (vf mf jf : List String) :
    (filter_major_machinery (some recs) mh mm yf vf mf jf).2 = some recs ∧
      ∃ rows, (filter_major_machinery (some recs) mh mm yf vf mf jf).1 = Except.ok rows ∧
        rows.all (fun row =>
          row.freqHours.isNone && row.freqMonths.isNone && row.dueYear.isNone) = true := by
  exact ⟨rfl, _, rfl, all_dropHelperColumns _⟩
